import Mathlib

/-!
Verification of the schematics-agent convergence loop and its support
functions.  The Python sources are shallowly embedded: file contents are
`String` (an unreadable file is `none : Option String`), the LLM oracle,
the chroma similarity service and the external ERC tool are environment
parameters, and every fallible Python operation returns `Option`.
-/

set_option autoImplicit false

namespace SchematicsAgent

/-! ## Python string primitives (on `List Char` / `String`) -/

/-- Whitespace characters recognised by Python's `str.strip` / `\s` (ASCII range). -/
def isPySpace (c : Char) : Bool :=
  c = ' ' || c = '\t' || c = '\n' || c = '\r' || c = '\x0b' || c = '\x0c'

/-- Decimal digits, the regex class `[0-9]` (code points 48-57). -/
def isDigitChar (c : Char) : Bool :=
  48 ≤ c.toNat && c.toNat ≤ 57

/-- Lowercase ASCII letters (code points 97-122). -/
def isLowerAlpha (c : Char) : Bool :=
  97 ≤ c.toNat && c.toNat ≤ 122

/-- Uppercase ASCII letters (code points 65-90). -/
def isUpperAlpha (c : Char) : Bool :=
  65 ≤ c.toNat && c.toNat ≤ 90

/-- ASCII letters, the regex class `[A-Za-z]`. -/
def isAsciiLetter (c : Char) : Bool :=
  isLowerAlpha c || isUpperAlpha c

/-- Word characters of the regex class `[A-Za-z0-9_]`. -/
def isWordChar (c : Char) : Bool :=
  isAsciiLetter c || isDigitChar c || c = '_'

/-- Characters of the regex class `[\d\.]` used by the coordinate pattern. -/
def isDigitOrDot (c : Char) : Bool :=
  isDigitChar c || c = '.'

/-- Characters of the regex class `[0-9a-fA-F-]` used by the uuid pattern. -/
def isHexOrDash (c : Char) : Bool :=
  isDigitChar c || (97 ≤ c.toNat && c.toNat ≤ 102) || (65 ≤ c.toNat && c.toNat ≤ 70) || c = '-'

/-- Python `str.strip()` on a character list. -/
def pyStripL (cs : List Char) : List Char :=
  ((cs.dropWhile isPySpace).reverse.dropWhile isPySpace).reverse

/-- Python `str.strip()`. -/
def pyStrip (s : String) : String :=
  String.mk (pyStripL s.data)

/-- Python `str.lower()` (ASCII; all strings handled here are ASCII). -/
def pyLower (s : String) : String :=
  String.mk (s.data.map Char.toLower)

/-- Python `str.upper()` (ASCII). -/
def pyUpper (s : String) : String :=
  String.mk (s.data.map Char.toUpper)

/-- Python `needle in hay` substring test, on character lists. -/
def hasSubL : List Char → List Char → Bool
  | [], needle => needle.isEmpty
  | h :: t, needle => needle.isPrefixOf (h :: t) || hasSubL t needle

/-- Python `needle in hay` substring test. -/
def hasSub (hay needle : String) : Bool :=
  hasSubL hay.data needle.data

/-- Python `hay.startswith(pre)`. -/
def pyStartsWith (s pre : String) : Bool :=
  pre.data.isPrefixOf s.data

/-- Python `hay.endswith(suf)`. -/
def pyEndsWith (s suf : String) : Bool :=
  suf.data.isSuffixOf s.data

/-- Python `", ".join`-style joining. -/
def joinWith (sep : String) : List String → String
  | [] => ""
  | [x] => x
  | x :: y :: rest => x ++ sep ++ joinWith sep (y :: rest)

/-- Insertion into an ascending list, for modelling Python `sorted`. -/
def insertAsc (x : String) : List String → List String
  | [] => [x]
  | y :: rest => if x ≤ y then x :: y :: rest else y :: insertAsc x rest

/-- Python `sorted` on strings (insertion sort; code-point order). -/
def pySorted : List String → List String
  | [] => []
  | x :: rest => insertAsc x (pySorted rest)

/-- Worker for `firstOccDedup`: skip elements already seen. -/
def firstOccAux (seen : List String) : List String → List String
  | [] => []
  | x :: rest =>
    if x ∈ seen then firstOccAux seen rest else x :: firstOccAux (x :: seen) rest

/-- Deduplication keeping the first occurrence, as a Python `set`-guarded append loop does. -/
def firstOccDedup (xs : List String) : List String :=
  firstOccAux [] xs

/-- Python `sorted(set(xs))`: the distinct elements in ascending order. -/
def sortedSet (xs : List String) : List String :=
  pySorted (firstOccDedup xs)

/-! ## `kicad/gpt_writer.py` -/

/-- A conversation entry: the `{"role": ..., "content": ...}` dict. -/
structure Msg where
  role : String
  content : String
deriving DecidableEq, Repr

/-- `GptSchematicWriter._add_history`: append the entry, then keep only the
most recent 10 entries (`self._history = self._history[-10:]`). -/
def addHistory (h : List Msg) (m : Msg) : List Msg :=
  let h' := h ++ [m]
  if 10 < h'.length then h'.drop (h'.length - 10) else h'

/-- First index of `needle` inside `cs` (Python `str.find`, `none` for `-1`). -/
def findSubIdx (cs needle : List Char) : Option Nat :=
  match cs with
  | [] => if needle.isEmpty then some 0 else none
  | _ :: t =>
    if needle.isPrefixOf cs then some 0
    else (findSubIdx t needle).map (· + 1)

/-- Last index of the character `c` (Python `str.rfind` on a single character). -/
def rfindCharIdx (cs : List Char) (c : Char) : Option Nat :=
  match cs with
  | [] => none
  | h :: t =>
    match rfindCharIdx t c with
    | some i => some (i + 1)
    | none => if h = c then some 0 else none

/-- Document extraction from `GptSchematicWriter.generate_text`: an empty
reply yields an empty document; otherwise the span from the first
`(kicad_sch` to the last `)` when that span is nonempty, else the stripped
reply. -/
def extractDoc (reply : String) : String :=
  if reply = "" then ""
  else
    match findSubIdx reply.data "(kicad_sch".data, rfindCharIdx reply.data ')' with
    | some s, some e =>
      if s < e then String.mk ((reply.data.drop s).take (e + 1 - s)) else pyStrip reply
    | _, _ => pyStrip reply

/-- `GptSchematicWriter._seed_schematic`. -/
def seedSchematic (title : String) : String :=
  "(kicad_sch (version 20250114) (generator eeschema)\n" ++
  "  (paper \"A4\")\n" ++
  "  (title_block (title \"" ++ (if title = "" then "Untitled" else title) ++ "\"))\n" ++
  ")\n"

/-- Well-formedness test from `GptSchematicWriter.write`: the stripped
candidate starts with `(kicad_sch` and ends with `)`. -/
def wellFormedDoc (parsed : String) : Bool :=
  pyStartsWith (pyStrip parsed) "(kicad_sch" && pyEndsWith (pyStrip parsed) ")"

/-- The write policy of `GptSchematicWriter.write`: persist the candidate if
well formed, else the previous document if non-blank, else the seed
(`write` always calls `_seed_schematic` with title `"Untitled"`). -/
def writeDocContent (parsed : String) (prev : Option String) : String :=
  if wellFormedDoc parsed then parsed
  else
    match prev with
    | some p => if p ≠ "" ∧ pyStrip p ≠ "" then p else seedSchematic "Untitled"
    | none => seedSchematic "Untitled"

/-! ## Regex probes

The source probes the schematic text with a handful of fixed regular
expressions.  Each is embedded as a deterministic matcher; for these
patterns (literal pieces followed by maximal character-class runs)
backtracking never changes the outcome, so maximal-run matching is exact. -/

/-- Match a literal at the current position, returning the remaining input. -/
def tryLit (lit cs : List Char) : Option (List Char) :=
  if lit.isPrefixOf cs then some (cs.drop lit.length) else none

/-- Match a case-insensitive literal (for patterns compiled with `re.I`). -/
def tryLitCI : List Char → List Char → Option (List Char)
  | [], cs => some cs
  | _ :: _, [] => none
  | l :: lt, c :: ct => if c.toLower = l.toLower then tryLitCI lt ct else none

/-- Match `\s+`: at least one whitespace character, consumed maximally. -/
def tryWs1 (cs : List Char) : Option (List Char) :=
  match cs with
  | [] => none
  | c :: t => if isPySpace c then some (t.dropWhile isPySpace) else none

/-- Match a nonempty maximal run of characters satisfying `p` (a `+`-quantified class). -/
def tryRun1 (p : Char → Bool) (cs : List Char) : Option (List Char × List Char) :=
  let run := cs.takeWhile p
  if run.isEmpty then none else some (run, cs.dropWhile p)

/-- Search: first position (left to right) where `f` matches. -/
def searchFirst {α : Type} (f : List Char → Option α) : List Char → Option α
  | [] => f []
  | c :: t =>
    match f (c :: t) with
    | some r => some r
    | none => searchFirst f t

/-- Non-overlapping `findall` driver: `f` yields a capture and the match
length; scanning resumes after each match. Fuel bounds the recursion and is
always instantiated with more than the input length. -/
def findAllAux {α : Type} (f : List Char → Option (α × Nat)) : Nat → List Char → List α
  | 0, _ => []
  | _ + 1, [] => []
  | fuel + 1, c :: t =>
    match f (c :: t) with
    | some (a, len) => a :: findAllAux f fuel ((c :: t).drop (max len 1))
    | none => findAllAux f fuel t

/-- Count positions at which `p` holds; for the fixed-width patterns counted
by the source (which cannot overlap themselves) this equals the number of
non-overlapping matches. -/
def countPositions (p : List Char → Bool) : List Char → Nat
  | [] => 0
  | c :: t => (if p (c :: t) then 1 else 0) + countPositions p t

/-- Value of a run of decimal digits (Python `int`). -/
def digitsToNat (ds : List Char) : Nat :=
  ds.foldl (fun n c => 10 * n + (c.toNat - 48)) 0

/-- Match `-?[\d\.]+`, returning the captured text. -/
def tryNum (cs : List Char) : Option (String × List Char) :=
  match cs with
  | '-' :: t => (tryRun1 isDigitOrDot t).map (fun p => (String.mk ('-' :: p.1), p.2))
  | _ => (tryRun1 isDigitOrDot cs).map (fun p => (String.mk p.1, p.2))

/-- Pattern `\(property\s+\"Reference\"\s+\"([A-Za-z]+\d+)\"`: returns the
match length and the captured reference. -/
def tryRefProp (cs : List Char) : Option (Nat × String) := do
  let r1 ← tryLit "(property".data cs
  let r2 ← tryWs1 r1
  let r3 ← tryLit "\"Reference\"".data r2
  let r4 ← tryWs1 r3
  let r5 ← tryLit "\"".data r4
  let (letters, r6) ← tryRun1 isAsciiLetter r5
  let (digits, r7) ← tryRun1 isDigitChar r6
  let r8 ← tryLit "\"".data r7
  pure (cs.length - r8.length, String.mk (letters ++ digits))

/-- All matches of the reference-property pattern with their spans
(`m.start()`, `m.end()`, captured reference), non-overlapping as with
`re.finditer`. -/
def findRefPropsAux : Nat → Nat → List Char → List (Nat × Nat × String)
  | 0, _, _ => []
  | _ + 1, _, [] => []
  | fuel + 1, pos, c :: t =>
    match tryRefProp (c :: t) with
    | some (len, ref) =>
      (pos, pos + len, ref) :: findRefPropsAux fuel (pos + len) ((c :: t).drop (max len 1))
    | none => findRefPropsAux fuel (pos + 1) t

/-- Entry point for the reference-property scan. -/
def findRefProps (cs : List Char) : List (Nat × Nat × String) :=
  findRefPropsAux (cs.length + 1) 0 cs

/-- Tail `(?:\s+(-?[\d\.]+))?\)` of the position pattern: try the optional
third coordinate followed by `)`, else require `)` directly. -/
def tryAtThird (cs : List Char) : Option (Option String × List Char) :=
  match (do
    let r1 ← tryWs1 cs
    let (n3, r2) ← tryNum r1
    let r3 ← tryLit ")".data r2
    pure (n3, r3) : Option (String × List Char)) with
  | some (n3, r3) => some (some n3, r3)
  | none => (tryLit ")".data cs).map (fun r => (none, r))

/-- Pattern `\(at\s+(-?[\d\.]+)\s+(-?[\d\.]+)(?:\s+(-?[\d\.]+))?\)`. -/
def tryAt (cs : List Char) : Option (String × String × Option String) := do
  let r1 ← tryLit "(at".data cs
  let r2 ← tryWs1 r1
  let (n1, r3) ← tryNum r2
  let r4 ← tryWs1 r3
  let (n2, r5) ← tryNum r4
  let (n3, _) ← tryAtThird r5
  pure (n1, n2, n3)

/-- Pattern `\(lib_id\s+\"([^\"]+)\"\)`, returning the capture and remaining input. -/
def tryLibId (cs : List Char) : Option (String × List Char) := do
  let r1 ← tryLit "(lib_id".data cs
  let r2 ← tryWs1 r1
  let r3 ← tryLit "\"".data r2
  let (name, r4) ← tryRun1 (fun c => c ≠ '"') r3
  let r5 ← tryLit "\")".data r4
  pure (String.mk name, r5)

/-- All captures of the `lib_id` pattern (`re.findall`). -/
def findAllLibIds (cs : List Char) : List String :=
  findAllAux (fun s => (tryLibId s).map (fun p => (p.1, s.length - p.2.length))) (cs.length + 1) cs

/-- Pattern `\(uuid\s+[0-9a-fA-F-]{8,}\)`. -/
def tryUuid (cs : List Char) : Option Unit := do
  let r1 ← tryLit "(uuid".data cs
  let r2 ← tryWs1 r1
  let (run, r3) ← tryRun1 isHexOrDash r2
  if run.length < 8 then none else
  let _ ← tryLit ")".data r3
  pure ()

/-- Pattern `Found\s+(\d+)\s+violations` with `re.I`, returning the count. -/
def tryFound (cs : List Char) : Option Nat := do
  let r1 ← tryLitCI "found".data cs
  let r2 ← tryWs1 r1
  let (digits, r3) ← tryRun1 isDigitChar r2
  let r4 ← tryWs1 r3
  let _ ← tryLitCI "violations".data r4
  pure (digitsToNat digits)

/-- Word boundary `\b` after a word character: next char absent or non-word. -/
def boundaryAt (cs : List Char) : Bool :=
  match cs with
  | [] => true
  | c :: _ => !isWordChar c

/-- Position matches `\(pin\b`. -/
def pinAt (cs : List Char) : Bool :=
  "(pin".data.isPrefixOf cs && boundaryAt (cs.drop 4)

/-- Position matches `\((rectangle|polyline|circle|arc)\b` (no alternative is
a prefix of another, so at most one can apply). -/
def shapeAt (cs : List Char) : Bool :=
  match cs with
  | '(' :: rest =>
    ("rectangle".data.isPrefixOf rest && boundaryAt (rest.drop 9)) ||
    ("polyline".data.isPrefixOf rest && boundaryAt (rest.drop 8)) ||
    ("circle".data.isPrefixOf rest && boundaryAt (rest.drop 6)) ||
    ("arc".data.isPrefixOf rest && boundaryAt (rest.drop 3))
  | _ => false

/-! ## `kicad/erc.py` -/

/-- `parse_erc_violations`: empty output is 0 violations; otherwise the first
`Found N violations` match (case-insensitive) gives N; an absent match is
reported as 0, never as an error. -/
def parseErcViolations (s : String) : Nat :=
  if s = "" then 0
  else
    match searchFirst tryFound s.data with
    | some n => n
    | none => 0

/-- Outcome of the external rule-checker phase as the orchestrator sees it:
the tool may be absent entirely, may run in structured-JSON mode (with the
report possibly unreadable), or may run in the text fallback mode.  The JSON
report is abstracted to its `violations` array. -/
inductive ErcOutcome where
  /-- Neither `run_erc_with_json` nor `run_erc` produced a process. -/
  | unavailable : ErcOutcome
  /-- `run_erc_with_json` produced a process with this exit status; the report
  parsed to an object whose `violations` list is given (`null` counts as the
  empty list), or no count was obtainable (report unreadable, or its
  `violations` field not a list so `len` raised and was swallowed). -/
  | withJson (rc : Int) (violations : Option (List String)) : ErcOutcome
  /-- JSON mode unavailable but `run_erc` produced a process with this exit
  status and this combined `stdout + "\n" + stderr` text. -/
  | textOnly (rc : Int) (combinedOut : String) : ErcOutcome
deriving DecidableEq, Repr

/-- The `(erc_rc, erc_violations)` pair computed by `run_orchestration`
lines 115-140 from the rule-checker phase. -/
def ercResults : ErcOutcome → Option Int × Option Nat
  | .unavailable => (none, none)
  | .withJson rc viols => (some rc, viols.map List.length)
  | .textOnly rc out => (some rc, some (parseErcViolations out))

/-- The acceptance decision of `run_orchestration` line 142: issue list
empty, exit status 0, violation count exactly 0. -/
def acceptDecision (issues : List String) (rc : Option Int) (viol : Option Nat) : Bool :=
  issues.isEmpty && rc == some 0 && viol == some 0

/-! ## `agents/validator_agent.py` (heuristic probes) -/

/-- An extracted placed instance: the tuple
`(ref, x, y, rot, lib_id, has_uuid)` of `_extract_instances`.  Coordinates
are parsed from decimal literals and modelled as exact rationals. -/
structure Inst where
  ref : String
  x : Rat
  y : Rat
  rot : Rat
  libId : String
  hasUuid : Bool
deriving DecidableEq, Repr

/-- Python `float()` on a string drawn from `-?[\d\.]+`: valid when it has at
least one digit and at most one dot. -/
def pyFloatQ (s : String) : Option Rat :=
  let p : Bool × List Char :=
    match s.data with
    | '-' :: t => (true, t)
    | l => (false, l)
  let neg := p.1
  let body := p.2
  if body.any isDigitChar && (body.filter (fun c => c = '.')).length ≤ 1 then
    let ip := body.takeWhile (fun c => c ≠ '.')
    let rest := body.dropWhile (fun c => c ≠ '.')
    let fp := match rest with
      | '.' :: t => t
      | _ => []
    let q : Rat := (digitsToNat ip : Rat) + (digitsToNat fp : Rat) / ((10 : Rat) ^ fp.length)
    some (if neg then -q else q)
  else none

/-- `ValidatorAgent._extract_instances` on readable text: for each
reference-property match, scan a +-2000 character window for position,
lib_id and uuid tokens; keep the instance when position and lib_id are both
found, zeroing the coordinates if any float conversion fails. -/
def extractInstancesL (text : List Char) : List Inst :=
  (findRefProps text).filterMap (fun m =>
    let wstart := m.1 - 2000
    let wend := min text.length (m.2.1 + 2000)
    let window := (text.drop wstart).take (wend - wstart)
    match searchFirst tryAt window, searchFirst (fun cs => (tryLibId cs).map Prod.fst) window with
    | some at_m, some lib =>
      let coords : Option (Rat × Rat × Rat) := do
        let x ← pyFloatQ at_m.1
        let y ← pyFloatQ at_m.2.1
        let rot ← match at_m.2.2 with
          | some t => pyFloatQ t
          | none => some 0
        pure (x, y, rot)
      let c := coords.getD (0, 0, 0)
      some ⟨m.2.2, c.1, c.2.1, c.2.2, lib, (searchFirst tryUuid window).isSome⟩
    | _, _ => none)

/-- `ValidatorAgent._desired_prefix_for_lib`. -/
def desiredPrefixForLib (libId : String) : String :=
  let l := pyLower libId
  if hasSub l "device:r" || hasSub l "resistor" then "R"
  else if hasSub l "device:c" || hasSub l "capacitor" then "C"
  else if hasSub l "device:l" || hasSub l "inductor" then "L"
  else if hasSub l "connector" || pyStartsWith l "conn" then "J"
  else if hasSub l "switch" || pyStartsWith l "sw" || hasSub l "button" then "S"
  else if hasSub l "device:d" || hasSub l "diode" || hasSub l "led" then "D"
  else if hasSub l "device:q" || hasSub l "transistor" || hasSub l "bjt" || hasSub l "mosfet" then "Q"
  else if hasSub l "crystal" || hasSub l "xtal" || hasSub l "osc" || hasSub l "resonator" then "Y"
  else "U"

/-- The too-close message (`min_spacing` is the float `20.0`). -/
def tooCloseMsg (a b : String) : String :=
  "Placed instances too close: " ++ a ++ " and " ++ b ++ " (increase spacing >= 20.0)."

/-- Squared-distance test of the placement probe: `dx*dx + dy*dy < 20.0 * 20.0`. -/
def closePair (a b : Inst) : Bool :=
  (a.x - b.x) * (a.x - b.x) + (a.y - b.y) * (a.y - b.y) < (400 : Rat)

/-- Inner loop `for j in range(i + 1, len(inst))` of the spacing check. -/
def tooCloseInner (a : Inst) : List Inst → List String
  | [] => []
  | b :: rest =>
    if closePair a b then tooCloseMsg a.ref b.ref :: tooCloseInner a rest
    else tooCloseInner a rest

/-- Outer loop of the spacing check: one issue per offending pair `i < j`. -/
def tooCloseIssues : List Inst → List String
  | [] => []
  | a :: rest => tooCloseInner a rest ++ tooCloseIssues rest

/-- The reference-prefix-mismatch message. -/
def refMismatchMsg (ref want libId : String) : String :=
  "Reference prefix mismatch for " ++ ref ++ ": expected to start with '" ++ want ++
  "' based on lib_id " ++ libId ++ "."

/-- The missing-uuid message. -/
def missingUuidMsg (ref : String) : String :=
  "Placed instance " ++ ref ++ " is missing (uuid ...). Add a UUID to each (symbol ...) instance."

/-- Second loop of `_check_instance_positions_and_refs`: prefix conformance
and uuid presence per instance. -/
def refUuidIssues : List Inst → List String
  | [] => []
  | i :: rest =>
    (if !pyStartsWith (pyUpper i.ref) (desiredPrefixForLib i.libId) then
      [refMismatchMsg i.ref (desiredPrefixForLib i.libId) i.libId]
    else []) ++
    (if !i.hasUuid then [missingUuidMsg i.ref] else []) ++
    refUuidIssues rest

/-- `_check_instance_positions_and_refs` on an instance list. -/
def positionsAndRefsIssues (inst : List Inst) : List String :=
  tooCloseIssues inst ++ refUuidIssues inst

/-- `ValidatorAgent._check_missing_embedded_symbols`: on unreadable input
(`none`) the probe reports nothing. -/
def checkMissingEmbeddedSymbols (content : Option String) : List String :=
  match content with
  | none => []
  | some text =>
    let used := findAllLibIds text.data
    if !used.isEmpty && !hasSub text "(lib_symbols" then
      ["No (lib_symbols ...) block present. Embed symbol definitions for: " ++
        joinWith ", " ((sortedSet used).take 20)]
    else []

/-- `ValidatorAgent._check_symbol_pins_and_graphics`. -/
def checkSymbolPinsAndGraphics (content : Option String) : List String :=
  match content with
  | none => []
  | some text =>
    if !hasSub text "(lib_symbols" then []
    else
      (if countPositions pinAt text.data = 0 then
        ["Embedded symbols lack (pin ...) definitions. Add pins with name/number, (at x y), and length."]
      else []) ++
      (if countPositions shapeAt text.data = 0 then
        ["Embedded symbols lack basic graphics (rectangle/polyline). Add a body rectangle around the symbol."]
      else [])

/-- `ValidatorAgent._check_invalid_lib_ids_and_sheet`. -/
def checkInvalidLibIdsAndSheet (content : Option String) : List String :=
  match content with
  | none => []
  | some text =>
    let invalids := (findAllLibIds text.data).filter
      (fun m => pyLower (pyStrip m) = "device:u" || pyLower (pyStrip m) = "device:unknown")
    (if !invalids.isEmpty then
      ["Invalid lib_id(s) found: " ++ joinWith ", " (sortedSet invalids) ++
        ". Replace with valid symbols or embed their definitions."]
    else []) ++
    (if !hasSub text "(sheet_instances" then
      ["Missing (sheet_instances ...) block. Add minimal KiCad 9 sheet bookkeeping to improve compatibility."]
    else []) ++
    (if hasSub text "(kicad_sch" && !hasSub text "(version 20250114)" then
      ["Header version is not KiCad 9 (20250114). Use (version 20250114) (generator eeschema)."]
    else [])

/-- `ValidatorAgent._check_instance_positions_and_refs` from text. -/
def checkInstancePositionsAndRefs (content : Option String) : List String :=
  match content with
  | none => []
  | some text => positionsAndRefsIssues (extractInstancesL text.data)

/-- `ValidatorAgent.validate` with `use_llm = False`: the four heuristic
probes concatenated in their fixed order. -/
def validateHeuristic (content : Option String) : List String :=
  checkMissingEmbeddedSymbols content ++ checkSymbolPinsAndGraphics content ++
  checkInvalidLibIdsAndSheet content ++ checkInstancePositionsAndRefs content

/-! ## `core/models.py` -/

/-- `PartSpec`: the abstract description of one component. -/
structure PartM where
  ref : String
  type : String
  symbol : Option String
  value : Option String
  pins : List (String × String)
  position : Option (Int × Int)
  rotation : Option Int
deriving DecidableEq, Repr

/-- A circuit specification: title, parts, net names (a `NetSpec` is just its
name). -/
structure CircuitM where
  title : Option String
  parts : List PartM
  nets : List String
deriving DecidableEq, Repr

/-! ## `kicad/rag.py`

The local symbol catalog (`index_symbols`, a filesystem scan) and the chroma
similarity search (`_chroma_search`, network I/O wrapped in a
catch-everything handler) are environment inputs: the catalog is a
library-to-symbol-names table, and the chroma search is an arbitrary
query-to-identifier-list function. -/

/-- The environment of the symbol resolver. -/
structure RagEnv where
  idx : List (String × List String)
  chroma : String → Nat → List String

/-- Lookup in the catalog (`index[lib]`; libraries are unique keys). -/
def idxFind (idx : List (String × List String)) (lib : String) : Option (List String) :=
  (idx.find? (fun p => p.1 = lib)).map Prod.snd

/-- `_list_if_exists`: qualified names for the requested symbols present in
the given library of the catalog. -/
def listIfExists (idx : List (String × List String)) (lib : String) (symbols : List String) : List String :=
  match idxFind idx lib with
  | none => []
  | some syms => (symbols.filter (fun s => s ∈ syms)).map (fun s => lib ++ ":" ++ s)

/-- `search_symbols_by_substrings`: pairs `(lib, name)` whose lowercased name
contains every (nonempty, lowercased) token. -/
def searchSymbolsBySubstrings (idx : List (String × List String)) (substrings : List String) : List (String × String) :=
  if substrings.isEmpty then []
  else
    let lowered := (substrings.filter (fun s => s ≠ "")).map pyLower
    (idx.map (fun p => (p.2.filter (fun nm => lowered.all (fun tok => hasSub (pyLower nm) tok))).map
      (fun nm => (p.1, nm)))).flatten

/-- State flag for `collapseRuns`: inside a non-word run already replaced. -/
def collapseRunsAux : Bool → List Char → List Char
  | _, [] => []
  | inRun, c :: rest =>
    if isWordChar c then c :: collapseRunsAux false rest
    else if inRun then collapseRunsAux true rest
    else '_' :: collapseRunsAux true rest

/-- `re.sub(r"[^A-Za-z0-9_]+", "_", s)`: each maximal run of non-word
characters becomes a single underscore. -/
def collapseRuns (cs : List Char) : List Char :=
  collapseRunsAux false cs

/-- The character list of the literal `Custom:`. -/
def customHead : List Char := ['C', 'u', 's', 't', 'o', 'm', ':']

/-- Build a `Custom:`-qualified identifier. -/
def mkCustom (base : List Char) : String :=
  String.mk (customHead ++ base)

/-- `_sanitize_value_for_custom`: strip, collapse non-word runs, truncate to
48 characters, default to `CustomPart` when empty, qualify with `Custom:`. -/
def sanitizeValueForCustom (value : String) : String :=
  let base := (collapseRuns (pyStripL value.data)).take 48
  mkCustom (if base.isEmpty then "CustomPart".data else base)

/-- The sentinel test applied by the candidate filter: lowercased identifier
equals `device:u` or `device:unknown`. -/
def sentinelLower (s : String) : Bool :=
  pyLower s = "device:u" || pyLower s = "device:unknown"

/-- The dedup-filter-cap loop of `candidates_for_part`: drop sentinels, drop
repeats, stop once the result holds `cap` entries (the accumulator is kept
reversed). -/
def dfcAux (cap : Nat) : List String → List String → List String
  | [], acc => acc.reverse
  | c :: rest, acc =>
    if sentinelLower c then dfcAux cap rest acc
    else if c ∈ acc then dfcAux cap rest acc
    else if cap ≤ acc.length + 1 then (c :: acc).reverse
    else dfcAux cap rest (c :: acc)

/-- `_suggest_from_value`: chroma hits first, then substring-search hits for
the recognised value families. -/
def suggestFromValue (env : RagEnv) (value : String) : List String :=
  let valueL := pyLower value
  env.chroma value 8 ++
  (if hasSub valueL "esp32" then
    (searchSymbolsBySubstrings env.idx ["esp32", "wroom"]).map (fun p => p.1 ++ ":" ++ p.2)
  else []) ++
  (if hasSub valueL "mcp73831" then
    (searchSymbolsBySubstrings env.idx ["mcp73831"]).map (fun p => p.1 ++ ":" ++ p.2)
  else []) ++
  (if hasSub valueL "hih" || hasSub valueL "4030" then
    (searchSymbolsBySubstrings env.idx ["hih", "4030"]).map (fun p => p.1 ++ ":" ++ p.2)
  else [])

/-- Python truthiness of an optional string (`if part.value:`). -/
def optStrTruthy : Option String → Bool
  | none => false
  | some s => s ≠ ""

/-- The heuristic candidate list of `candidates_for_part` before
deduplication: one branch by type tag or reference initial, else
value-driven suggestions. -/
def rawCandidates (env : RagEnv) (part : PartM) (cap : Nat) : List String :=
  let ptype := pyUpper part.type
  let refId := pyUpper part.ref
  if ptype = "R" || pyStartsWith refId "R" then
    (listIfExists env.idx "Device" ["R"]).take cap
  else if ptype = "C" || pyStartsWith refId "C" then
    (listIfExists env.idx "Device" ["C"]).take cap
  else if ptype = "CONN" || ptype = "CONNECTOR" then
    (listIfExists env.idx "Connector_Generic"
      ["Conn_01x02", "Conn_01x03", "Conn_01x04", "Conn_01x06"]).take cap
  else if ptype = "LED" || ptype = "D" then
    (listIfExists env.idx "Device" ["LED", "D"]).take cap
  else
    match part.value with
    | some v => if v ≠ "" then (suggestFromValue env v).take cap else []
    | none => []

/-- `candidates_for_part`: heuristic candidates, deduplicated, sentinel-free
and capped; a synthesized `Custom:` placeholder when nothing survives. -/
def candidatesForPart (env : RagEnv) (part : PartM) (cap : Nat) : List String :=
  let result := dfcAux cap (rawCandidates env part cap) []
  if result.isEmpty then
    match part.value with
    | some v =>
      if v ≠ "" then [sanitizeValueForCustom v]
      else [mkCustom (if pyUpper part.ref = "" then "Unknown".data else (pyUpper part.ref).data)]
    | none => [mkCustom (if pyUpper part.ref = "" then "Unknown".data else (pyUpper part.ref).data)]
  else result

/-- `candidates_for_parts`: the allowed-identifier table, one entry per part
in input order (references are unique, so the dict comprehension keeps all
entries). -/
def candidatesForParts (env : RagEnv) (parts : List PartM) (cap : Nat) : List (String × List String) :=
  parts.map (fun p => (p.ref, candidatesForPart env p cap))

/-! ## JSON values and `json.loads`

`load_circuit_spec` calls `json.loads` without a handler: malformed input
raises.  The parser is embedded here; `none` models the raised
`JSONDecodeError`.  Numbers keep the int/float distinction `json.loads`
makes; float values are held as exact rationals. -/

/-- A parsed JSON value (object fields keep insertion order; duplicate keys
collapse to the last value, as Python dicts do). -/
inductive JValue where
  | jnull : JValue
  | jbool (b : Bool) : JValue
  | jint (n : Int) : JValue
  | jfloat (q : Rat) : JValue
  | jstr (s : String) : JValue
  | jarr (xs : List JValue) : JValue
  | jobj (fields : List (String × JValue)) : JValue
deriving Repr

/-- JSON whitespace (space, tab, newline, carriage return). -/
def skipJsonWs (cs : List Char) : List Char :=
  cs.dropWhile (fun c => c = ' ' || c = '\t' || c = '\n' || c = '\r')

/-- Hexadecimal digit value, by code point: digits, then the lowercase and
uppercase letter ranges offset to 10-15. -/
def hexVal (c : Char) : Option Nat :=
  if isDigitChar c then some (c.toNat - 48)
  else if 97 ≤ c.toNat && c.toNat ≤ 102 then some (c.toNat - 87)
  else if 65 ≤ c.toNat && c.toNat ≤ 70 then some (c.toNat - 55)
  else none

/-- String-literal body parser (after the opening quote): JSON escapes, strict
rejection of raw control characters and bad escapes. -/
def parseStrAux : Nat → List Char → List Char → Option (String × List Char)
  | 0, _, _ => none
  | fuel + 1, acc, cs =>
    match cs with
    | [] => none
    | '"' :: t => some (String.mk acc.reverse, t)
    | '\\' :: e :: t =>
      match e with
      | '"' => parseStrAux fuel ('"' :: acc) t
      | '\\' => parseStrAux fuel ('\\' :: acc) t
      | '/' => parseStrAux fuel ('/' :: acc) t
      | 'b' => parseStrAux fuel ('\x08' :: acc) t
      | 'f' => parseStrAux fuel ('\x0c' :: acc) t
      | 'n' => parseStrAux fuel ('\n' :: acc) t
      | 'r' => parseStrAux fuel ('\x0d' :: acc) t
      | 't' => parseStrAux fuel ('\t' :: acc) t
      | 'u' =>
        match t with
        | a :: b :: c2 :: d :: t2 =>
          match hexVal a, hexVal b, hexVal c2, hexVal d with
          | some ha, some hb, some hc, some hd =>
            let code := ((ha * 16 + hb) * 16 + hc) * 16 + hd
            if code < 0xd800 || 0xe000 ≤ code then
              parseStrAux fuel (Char.ofNat code :: acc) t2
            else
              parseStrAux fuel ('�' :: acc) t2
          | _, _, _, _ => none
        | _ => none
      | _ => none
    | c :: t => if c.toNat < 0x20 then none else parseStrAux fuel (c :: acc) t

/-- Number parser per the JSON grammar: `-?(0|[1-9]\d*)(\.\d+)?([eE][-+]?\d+)?`;
an int when neither fraction nor exponent is present, a float otherwise. -/
def parseNum (cs : List Char) : Option (JValue × List Char) :=
  let p : Bool × List Char :=
    match cs with
    | '-' :: t => (true, t)
    | _ => (false, cs)
  let neg := p.1
  let ipr : Option (List Char × List Char) :=
    match p.2 with
    | '0' :: t => some (['0'], t)
    | c :: t =>
      if '1' ≤ c && c ≤ '9' then some (c :: t.takeWhile isDigitChar, t.dropWhile isDigitChar)
      else none
    | [] => none
  match ipr with
  | none => none
  | some (ip, rest1) =>
    let fr : List Char × List Char :=
      match rest1 with
      | '.' :: t =>
        let ds := t.takeWhile isDigitChar
        if ds.isEmpty then ([], rest1) else (ds, t.dropWhile isDigitChar)
      | _ => ([], rest1)
    let fp := fr.1
    let rest2 := fr.2
    let ex : Option (Bool × List Char) × List Char :=
      match rest2 with
      | c :: t =>
        if c = 'e' || c = 'E' then
          match t with
          | '+' :: t2 =>
            let ds := t2.takeWhile isDigitChar
            if ds.isEmpty then (none, rest2) else (some (false, ds), t2.dropWhile isDigitChar)
          | '-' :: t2 =>
            let ds := t2.takeWhile isDigitChar
            if ds.isEmpty then (none, rest2) else (some (true, ds), t2.dropWhile isDigitChar)
          | _ =>
            let ds := t.takeWhile isDigitChar
            if ds.isEmpty then (none, rest2) else (some (false, ds), t.dropWhile isDigitChar)
        else (none, rest2)
      | [] => (none, rest2)
    let rest3 := ex.2
    if fp.isEmpty && ex.1.isNone then
      let n : Int := Int.ofNat (digitsToNat ip)
      some (.jint (if neg then -n else n), rest3)
    else
      let base : Rat := (digitsToNat ip : Rat) + (digitsToNat fp : Rat) / ((10 : Rat) ^ fp.length)
      let scaled : Rat :=
        match ex.1 with
        | none => base
        | some (false, ds) => base * (10 : Rat) ^ digitsToNat ds
        | some (true, ds) => base / (10 : Rat) ^ digitsToNat ds
      some (.jfloat (if neg then -scaled else scaled), rest3)

/-- Insert-or-overwrite for object fields (Python dict update keeps the
original key position). -/
def objUpsert (fields : List (String × JValue)) (k : String) (v : JValue) : List (String × JValue) :=
  match fields with
  | [] => [(k, v)]
  | (k0, v0) :: rest => if k0 = k then (k, v) :: rest else (k0, v0) :: objUpsert rest k v

/-- Array-element loop: `p` parses one value at a whitespace-skipped start. -/
def loopElems (p : List Char → Option (JValue × List Char)) :
    Nat → List JValue → List Char → Option (List JValue × List Char)
  | 0, _, _ => none
  | fuel + 1, acc, cs =>
    match p cs with
    | none => none
    | some (v, rest) =>
      match skipJsonWs rest with
      | ',' :: t => loopElems p fuel (v :: acc) (skipJsonWs t)
      | ']' :: t => some ((v :: acc).reverse, t)
      | _ => none

/-- Object-member loop (key string, colon, value). -/
def loopMembers (p : List Char → Option (JValue × List Char)) :
    Nat → List (String × JValue) → List Char → Option (List (String × JValue) × List Char)
  | 0, _, _ => none
  | fuel + 1, acc, cs =>
    match cs with
    | '"' :: t =>
      match parseStrAux (t.length + 1) [] t with
      | none => none
      | some (k, rest) =>
        match skipJsonWs rest with
        | ':' :: t2 =>
          match p (skipJsonWs t2) with
          | none => none
          | some (v, rest2) =>
            let acc1 := objUpsert acc k v
            match skipJsonWs rest2 with
            | ',' :: t3 => loopMembers p fuel acc1 (skipJsonWs t3)
            | '}' :: t3 => some (acc1, t3)
            | _ => none
        | _ => none
    | _ => none

/-- Value parser (expects a whitespace-skipped start). -/
def parseV : Nat → List Char → Option (JValue × List Char)
  | 0, _ => none
  | fuel + 1, cs =>
    match cs with
    | [] => none
    | c :: t =>
      if c = '{' then
        match skipJsonWs t with
        | '}' :: t2 => some (.jobj [], t2)
        | cs1 => (loopMembers (parseV fuel) fuel [] cs1).map (fun p => (JValue.jobj p.1, p.2))
      else if c = '[' then
        match skipJsonWs t with
        | ']' :: t2 => some (.jarr [], t2)
        | cs1 => (loopElems (parseV fuel) fuel [] cs1).map (fun p => (JValue.jarr p.1, p.2))
      else if c = '"' then
        (parseStrAux (t.length + 1) [] t).map (fun p => (JValue.jstr p.1, p.2))
      else
        match tryLit "true".data cs with
        | some r => some (.jbool true, r)
        | none =>
          match tryLit "false".data cs with
          | some r => some (.jbool false, r)
          | none =>
            match tryLit "null".data cs with
            | some r => some (.jnull, r)
            | none => parseNum cs

/-- `json.loads`: parse one value, allow surrounding whitespace only;
`none` models the raised `JSONDecodeError`. -/
def pyJsonLoads (s : String) : Option JValue :=
  match parseV (2 * s.data.length + 2) (skipJsonWs s.data) with
  | some (v, rest) => if (skipJsonWs rest).isEmpty then some v else none
  | none => none

/-! ## `core/ingest.py` -/

/-- Python `dict.get`: `none` when the key is absent. -/
def pyGetJ (fields : List (String × JValue)) (k : String) : Option JValue :=
  (fields.find? (fun p => p.1 = k)).map Prod.snd

/-- Python `key in dict`. -/
def hasKeyJ (fields : List (String × JValue)) (k : String) : Bool :=
  (fields.find? (fun p => p.1 = k)).isSome

/-- Python truthiness of a JSON value. -/
def jTruthy : JValue → Bool
  | .jnull => false
  | .jbool b => b
  | .jint n => n ≠ 0
  | .jfloat q => q ≠ 0
  | .jstr s => s ≠ ""
  | .jarr xs => !xs.isEmpty
  | .jobj fs => !fs.isEmpty

/-- Python `str()` of a JSON value, used for `str(cid)`.  Container and
float renderings are approximations (no theorem depends on them); the
cases exercised by the loader are strings and the generated default. -/
def pyStrOfJ : JValue → String
  | .jstr s => s
  | .jnull => "None"
  | .jbool true => "True"
  | .jbool false => "False"
  | .jint n => toString n
  | .jfloat q => toString q
  | .jarr _ => "[...]"
  | .jobj _ => "\x7b...\x7d"

/-- `_map_component_to_partspec`; `none` models any exception (swallowed by
the caller's `continue`): a non-string truthy `category` (`.lower()` on a
non-string) or a `value` that pydantic rejects for `Optional[str]`. -/
def mapComponentToPartspec (comp : List (String × JValue)) (index : Nat) : Option PartM := do
  let cid := (pyGetJ comp "id").getD (.jstr ("U" ++ toString (index + 1)))
  let category ← match pyGetJ comp "category" with
    | none => some ""
    | some v =>
      if jTruthy v then
        match v with
        | .jstr s => some (pyLower s)
        | _ => none
      else some ""
  let value ← match pyGetJ comp "value" with
    | none => some none
    | some .jnull => some none
    | some (.jstr s) => some (some s)
    | some _ => none
  let sCid := pyStrOfJ cid
  let tg : String × Option String :=
    if category = "passive" then
      if pyStartsWith (pyUpper sCid) "C" then ("C", some "Device:C")
      else if pyStartsWith (pyUpper sCid) "R" then ("R", some "Device:R")
      else ("R", some "Device:R")
    else if category = "microcontroller" || category = "processor" || category = "mcu" then
      ("MCU", some "Device:U")
    else if category = "sensor" || category = "power-protection" || category = "power-supply" then
      ("U", some "Device:U")
    else if category = "connector" then
      ("Conn", some "Connector_Generic:Conn_01x02")
    else ("U", none)
  pure ⟨sCid, tg.1, tg.2, value, [], none, some 0⟩

/-- The `components` loop: each entry is mapped inside `try/except: continue`,
so a non-dict entry or a mapping exception just skips that entry. -/
def collectParts (index : Nat) : List JValue → List PartM
  | [] => []
  | .jobj f :: rest =>
    match mapComponentToPartspec f index with
    | some p => p :: collectParts (index + 1) rest
    | none => collectParts (index + 1) rest
  | _ :: rest => collectParts (index + 1) rest

/-- Iterable supplied to the `components` loop.  A missing key gives `[]`;
iterating a string or a dict yields strings, every one of which is skipped
by the per-entry handler, so those behave as empty; `enumerate` over a
non-iterable raises (`none`). -/
def componentEntries : Option JValue → Option (List JValue)
  | none => some []
  | some (.jarr xs) => some xs
  | some (.jstr _) => some []
  | some (.jobj _) => some []
  | some _ => none

/-- Iterable supplied to the `nets` / `powerDomains` loops, which have no
exception handler: entries that would raise on `.get` make the whole
conversion raise, so a non-empty string or dict (whose iteration yields
strings) and any non-iterable are failures. -/
def netEntries : Option JValue → Option (List JValue)
  | none => some []
  | some (.jarr xs) => some xs
  | some (.jstr s) => if s = "" then some [] else none
  | some (.jobj fs) => if fs.isEmpty then some [] else none
  | some _ => none

/-- Guarded append of a candidate net name: must be a string, non-empty and
unseen (`seen` is exactly the set of already-collected names). -/
def addIfNew (acc : List String) : Option JValue → List String
  | some (.jstr s) => if s ≠ "" && s ∉ acc then acc ++ [s] else acc
  | _ => acc

/-- The `nets` loop: for each entry, try the `id` then the `name` key. -/
def collectFromNets : List JValue → List String → Option (List String)
  | [], acc => some acc
  | .jobj f :: rest, acc => collectFromNets rest (addIfNew (addIfNew acc (pyGetJ f "id")) (pyGetJ f "name"))
  | _ :: _, _ => none

/-- The `powerDomains` loop: the `name` key only. -/
def collectFromPds : List JValue → List String → Option (List String)
  | [], acc => some acc
  | .jobj f :: rest, acc => collectFromPds rest (addIfNew acc (pyGetJ f "name"))
  | _ :: _, _ => none

/-- Title computation `data.get("device", {}).get("name") or "Untitled"`,
then validated by pydantic as `Optional[str]`: a non-dict `device` or a
truthy non-string name raises (`none`). -/
def titleStep (fields : List (String × JValue)) : Option String :=
  match pyGetJ fields "device" with
  | none => some "Untitled"
  | some (.jobj df) =>
    match pyGetJ df "name" with
    | none => some "Untitled"
    | some v =>
      if jTruthy v then
        match v with
        | .jstr s => some s
        | _ => none
      else some "Untitled"
  | some _ => none

/-- `_convert_pseudo_cad_schema`; `none` models an uncaught exception. -/
def convertPseudoCad (fields : List (String × JValue)) : Option CircuitM := do
  let title ← titleStep fields
  let comps ← componentEntries (pyGetJ fields "components")
  let parts := collectParts 0 comps
  let netsE ← netEntries (pyGetJ fields "nets")
  let acc1 ← collectFromNets netsE []
  let pdsE ← netEntries (pyGetJ fields "powerDomains")
  let acc2 ← collectFromPds pdsE acc1
  let nets := if "GND" ∈ acc2 then acc2 else acc2 ++ ["GND"]
  pure ⟨some title, parts, nets⟩

/-- Pydantic validation of an `Optional[str]` field. -/
def asOptStr : Option JValue → Option (Option String)
  | none => some none
  | some .jnull => some none
  | some (.jstr s) => some (some s)
  | some _ => none

/-- Pydantic validation of a required `str` field. -/
def asStr : Option JValue → Option String
  | some (.jstr s) => some s
  | _ => none

/-- Pydantic lax validation of an `int`: ints, integral floats, digit strings. -/
def asIntLax : JValue → Option Int
  | .jint n => some n
  | .jfloat q => if q.den = 1 then some q.num else none
  | .jstr s =>
    match s.data with
    | '-' :: ds => if !ds.isEmpty && ds.all isDigitChar then some (-(digitsToNat ds : Int)) else none
    | ds => if !ds.isEmpty && ds.all isDigitChar then some (digitsToNat ds : Int) else none
  | _ => none

/-- Pydantic validation of `Dict[str, str]` with empty default. -/
def asPins : Option JValue → Option (List (String × String))
  | none => some []
  | some (.jobj fs) => fs.mapM (fun p =>
      match p.2 with
      | .jstr s => some (p.1, s)
      | _ => none)
  | some _ => none

/-- Pydantic validation of `Optional[Tuple[int, int]]`. -/
def asOptPos : Option JValue → Option (Option (Int × Int))
  | none => some none
  | some .jnull => some none
  | some (.jarr [a, b]) => do
    let x ← asIntLax a
    let y ← asIntLax b
    pure (some (x, y))
  | some _ => none

/-- Pydantic construction of a `PartSpec` from a JSON value. -/
def partOfJ : JValue → Option PartM
  | .jobj f => do
    let ref ← asStr (pyGetJ f "ref")
    let ty ← asStr (pyGetJ f "type")
    let symbol ← asOptStr (pyGetJ f "symbol")
    let value ← asOptStr (pyGetJ f "value")
    let pins ← asPins (pyGetJ f "pins")
    let pos ← asOptPos (pyGetJ f "position")
    let rot ← match pyGetJ f "rotation" with
      | none => some (some 0)
      | some .jnull => some none
      | some w => (asIntLax w).map some
    pure ⟨ref, ty, symbol, value, pins, pos, rot⟩
  | _ => none

/-- Pydantic construction of a `NetSpec`. -/
def netOfJ : JValue → Option String
  | .jobj f => asStr (pyGetJ f "name")
  | _ => none

/-- `CircuitSpec(**raw)` for the native shape; `none` models a pydantic
`ValidationError` (uncaught, so the load raises). -/
def circuitSpecOfFields (fields : List (String × JValue)) : Option CircuitM := do
  let title ← asOptStr (pyGetJ fields "title")
  let parts ← match pyGetJ fields "parts" with
    | none => some []
    | some (.jarr xs) => xs.mapM partOfJ
    | some _ => none
  let nets ← match pyGetJ fields "nets" with
    | none => some []
    | some (.jarr xs) => xs.mapM netOfJ
    | some _ => none
  pure ⟨title, parts, nets⟩

/-- The empty default circuit of `load_circuit_spec` line 84. -/
def defaultCircuit : CircuitM :=
  ⟨some "Untitled", [], []⟩

/-- Shape dispatch of `load_circuit_spec` on a parsed value. -/
def loadValue : JValue → Option CircuitM
  | .jobj fields =>
    if hasKeyJ fields "components" then convertPseudoCad fields
    else if hasKeyJ fields "parts" || hasKeyJ fields "nets" then circuitSpecOfFields fields
    else some defaultCircuit
  | _ => some defaultCircuit

/-- `load_circuit_spec` on the file's text content; `none` models an
uncaught exception (malformed JSON, conversion or validation failure). -/
def loadCircuitSpec (content : String) : Option CircuitM :=
  match pyJsonLoads content with
  | none => none
  | some raw => loadValue raw

/-! ## The oracle probe of `agents/validator_agent.py` -/

/-- Issue extraction from the validator-oracle reply
(`_check_kicad_text_llm` lines after the `chat` call): empty reply gives no
issues; otherwise the first-`\x7b`-to-last-`\x7d` slice is parsed as JSON —
a parse failure yields the fixed non-JSON issue, an object with an `issues`
array yields its stringified elements, anything else yields nothing. -/
def llmReplyIssues (reply : String) : List String :=
  if reply = "" then []
  else
    match findSubIdx reply.data ['\x7b'], rfindCharIdx reply.data '\x7d' with
    | some s, some e =>
      if s < e then
        match pyJsonLoads (String.mk ((reply.data.drop s).take (e + 1 - s))) with
        | none => ["LLM returned non-JSON response for KiCad validation."]
        | some (.jobj fs) =>
          match pyGetJ fs "issues" with
          | some (.jarr xs) => xs.map pyStrOfJ
          | _ => []
        | some _ => []
      else []
    | _, _ => []

/-- `ValidatorAgent._check_kicad_text_llm` (with the oracle's reply supplied
by the environment): an unreadable file yields the explicit cannot-read
issue before any oracle call. -/
def checkKicadTextLlm (reply schPath : String) (content : Option String) : List String :=
  match content with
  | none => ["Cannot read schematic file: " ++ schPath]
  | some _ => llmReplyIssues reply

/-- `ValidatorAgent.validate` in general: the heuristic probes plus, when
`use_llm` is set, the oracle probe. -/
def validateModel (useLlm : Bool) (valReply schPath : String) (content : Option String) : List String :=
  validateHeuristic content ++ (if useLlm then checkKicadTextLlm valReply schPath content else [])

/-! ## `agents/orchestrator.py`

The loop's external collaborators per iteration — the oracle reply handed to
the synthesizer, the oracle-validator issues (when LLM validation is on) and
the rule-checker outcome — form an iteration environment, indexed by the
1-based iteration number.  The output file is the single cell of the
modelled filesystem; reading back a just-written file succeeds. -/

/-- What the external world supplies to one iteration: the synthesizer
oracle's reply, the validator oracle's reply (unused when LLM validation is
off) and the rule-checker outcome. -/
structure IterEnv where
  reply : String
  valReply : String
  erc : ErcOutcome

/-- Static configuration of a run: whether the validator may call the
oracle, and the expected references (the keys of the allowed table). -/
structure OrchCfg where
  useLlm : Bool
  expectedRefs : List String

/-- References placed in the persisted text:
`re.findall(r"\(property\s+\"Reference\"\s+\"([A-Za-z]+\d+)\"", prev_text)`. -/
def foundRefs (content : String) : List String :=
  (findRefProps content.data).map (fun m => m.2.2)

/-- The combined missing-reference message. -/
def missingRefsMsg (missing : List String) : String :=
  "Missing placed instances for refs: " ++ joinWith ", " missing

/-- One full iteration of the loop body (write, read back, validate,
cross-check references, rule-check, decide): returns the persisted content,
the final issue list of the iteration and the acceptance decision. -/
def iterStep (cfg : OrchCfg) (schPath : String) (e : IterEnv) (prev : Option String) :
    String × List String × Bool :=
  let content := writeDocContent (extractDoc e.reply) prev
  let issues1 := validateModel cfg.useLlm e.valReply schPath (some content)
  let missing :=
    if content ≠ "" then cfg.expectedRefs.filter (fun r => r ∉ foundRefs content)
    else []
  let issues2 := if missing.isEmpty then issues1 else issues1 ++ [missingRefsMsg missing]
  let rv := ercResults e.erc
  (content, issues2, acceptDecision issues2 rv.1 rv.2)

/-- Result of a run: the persisted file, iterations performed, acceptance. -/
structure LoopRes where
  doc : Option String
  iters : Nat
  accepted : Bool
deriving DecidableEq, Repr

/-- The `for iteration in range(1, max_iters + 1)` loop with its `break` on
acceptance: `i` is the current iteration number, the second argument the
remaining budget, then the last-written file and the count performed. -/
def loopFrom (cfg : OrchCfg) (schPath : String) (env : Nat → IterEnv) :
    Nat → Nat → Option String → Nat → LoopRes
  | _, 0, prev, cnt => ⟨prev, cnt, false⟩
  | i, r + 1, prev, cnt =>
    let step := iterStep cfg schPath (env i) prev
    if step.2.2 then ⟨some step.1, cnt + 1, true⟩
    else loopFrom cfg schPath env (i + 1) r (some step.1) (cnt + 1)

/-- The output path `<out-dir>/<sanitized-title>.kicad_sch` (relative part):
`(circuit.title or 'design')` with spaces replaced by underscores. -/
def schFileName (title : Option String) : String :=
  String.mk (((match title with
    | some t => if t = "" then "design" else t
    | none => "design").data.map (fun c => if c = ' ' then '_' else c))) ++ ".kicad_sch"

/-- `run_orchestration` from the loop onward: returns the output path name
and the loop result. -/
def runOrchestration (cfg : OrchCfg) (env : Nat → IterEnv) (title : Option String)
    (maxIters : Nat) : String × LoopRes :=
  (schFileName title, loopFrom cfg (schFileName title) env 1 maxIters none 0)

/-- The document persisted after `r` further iterations starting at
iteration `i` with previous text `prev` (acceptance does not influence what
an executed iteration writes). -/
def lastDocFrom (cfg : OrchCfg) (schPath : String) (env : Nat → IterEnv) :
    Nat → Nat → Option String → Option String
  | _, 0, prev => prev
  | i, r + 1, prev =>
    lastDocFrom cfg schPath env (i + 1) r (some (iterStep cfg schPath (env i) prev).1)

/-! # Claims -/

/-! ## C1: the acceptance decision -/

/-- C1 (counterexample): the claim asserts that whenever the violation count
cannot be determined — explicitly including an unparsable count — acceptance
is denied.  In the text-fallback path the checker output `Running ERC
checks` contains no `Found N violations` match (the count is unparsed), yet
`parse_erc_violations` reports 0, and with an empty issue list and exit
status 0 the iteration is accepted. -/
theorem C1_counterexample :
    searchFirst tryFound "Running ERC checks".data = none ∧
    acceptDecision [] (ercResults (.textOnly 0 "Running ERC checks")).1
      (ercResults (.textOnly 0 "Running ERC checks")).2 = true :=
  ⟨by decide, by decide⟩

/-- C1 (amended): acceptance holds iff the issue list is empty, the exit
status is 0 and the violation count is exactly 0; a `none` count is always
denied; the count is `none` exactly when the checker is absent or the JSON
report was unusable; but in the text-fallback path an output with no
parsable `Found N violations` match yields the count 0 (so acceptance can
be granted there), not a denial. -/
theorem C1_acceptance_amended :
    (∀ (issues : List String) (rc : Option Int) (viol : Option Nat),
      acceptDecision issues rc viol = true ↔ issues = [] ∧ rc = some 0 ∧ viol = some 0) ∧
    (∀ (issues : List String) (rc : Option Int), acceptDecision issues rc none = false) ∧
    (∀ out : ErcOutcome, (ercResults out).2 = none ↔
      out = .unavailable ∨ ∃ rc, out = .withJson rc none) ∧
    (∀ (rc : Int) (out : String), searchFirst tryFound out.data = none →
      (ercResults (.textOnly rc out)).2 = some 0) := by
  refine ⟨?_, ?_, ?_, ?_⟩
  · intro issues rc viol
    simp [acceptDecision, List.isEmpty_iff, and_assoc]
  · intro issues rc
    simp [acceptDecision]
  · intro out
    cases out with
    | unavailable => simp [ercResults]
    | withJson rc viols => cases viols <;> simp [ercResults]
    | textOnly rc out => simp [ercResults]
  · intro rc out h
    simp only [ercResults, parseErcViolations]
    split
    · rfl
    · rw [h]

/-- C1 (amended, witness): a concrete run of the text-fallback path with an
unparsable output. -/
theorem C1_acceptance_amended_witness :
    searchFirst tryFound "Done".data = none ∧
    (ercResults (.textOnly 0 "Done")).2 = some 0 :=
  ⟨by decide, C1_acceptance_amended.2.2.2 0 "Done" (by decide)⟩

/-! ## C3: the write policy -/

/-- C3: for every oracle reply and previous document, the persisted document
is exactly one of: the extracted candidate when well formed (stripped text
starts with `(kicad_sch` and ends with `)`), else the previous document
unchanged when one exists and is non-blank, else the minimal seed — a
malformed candidate is never the source of the persisted text. -/
theorem C3_write_policy :
    ∀ (reply : String) (prev : Option String),
      (wellFormedDoc (extractDoc reply) = true ∧
        writeDocContent (extractDoc reply) prev = extractDoc reply) ∨
      (wellFormedDoc (extractDoc reply) = false ∧
        (∃ p, prev = some p ∧ pyStrip p ≠ "" ∧
          writeDocContent (extractDoc reply) prev = p)) ∨
      (wellFormedDoc (extractDoc reply) = false ∧
        (∀ p, prev = some p → pyStrip p = "") ∧
        writeDocContent (extractDoc reply) prev = seedSchematic "Untitled") := by
  intro reply prev
  cases hwf : wellFormedDoc (extractDoc reply) with
  | true =>
    refine Or.inl ⟨rfl, ?_⟩
    simp [writeDocContent, hwf]
  | false =>
    cases prev with
    | none =>
      refine Or.inr (Or.inr ⟨rfl, fun p hp => Option.noConfusion hp, ?_⟩)
      simp [writeDocContent, hwf]
    | some p =>
      by_cases hp : pyStrip p = ""
      · refine Or.inr (Or.inr ⟨rfl, fun q hq => by cases hq; exact hp, ?_⟩)
        simp [writeDocContent, hwf, hp]
      · have hne : p ≠ "" := fun he => hp (by rw [he]; rfl)
        refine Or.inr (Or.inl ⟨rfl, p, rfl, hp, ?_⟩)
        simp [writeDocContent, hwf, hne, hp]

/-! ## C4: probes on unreadable input -/

/-- C4 (counterexample): the claim asserts the completeness probe surfaces
an explicit file-unreadable issue on an unreadable path; in the code
`_check_missing_embedded_symbols` swallows the read failure and reports no
issues at all. -/
theorem C4_counterexample : checkMissingEmbeddedSymbols none = [] := rfl

/-- C4 (amended): on an unreadable path every heuristic probe — including
the completeness probe — reports no issues, and the heuristic checker
(LLM disabled) reports none overall; the explicit cannot-read issue is
produced only by the oracle probe (enabled with `use_llm`). -/
theorem C4_unreadable_probes :
    checkMissingEmbeddedSymbols none = [] ∧
    checkSymbolPinsAndGraphics none = [] ∧
    checkInvalidLibIdsAndSheet none = [] ∧
    checkInstancePositionsAndRefs none = [] ∧
    validateHeuristic none = [] ∧
    (∀ reply schPath : String,
      checkKicadTextLlm reply schPath none = ["Cannot read schematic file: " ++ schPath]) :=
  ⟨rfl, rfl, rfl, rfl, rfl, fun _ _ => rfl⟩

/-! ## C9: determinism of the heuristic checker -/

/-- C9: with LLM checking disabled the checker is a pure function of the
document text — the embedding `validateHeuristic` is stateless (the probes
only run fixed regular expressions over the given content), so two runs on
the same unchanged content produce identical issue lists in the same
order. -/
theorem C9_validator_pure :
    ∀ content : Option String, validateHeuristic content = validateHeuristic content :=
  fun _ => rfl

/-! ## C6: the history sliding window -/

/-- Auxiliary: one `_add_history` step keeps exactly the 10 most recent
entries of the appended history. -/
theorem addHistory_eq_dropLast10 (h : List Msg) (m : Msg) :
    addHistory h m = (h ++ [m]).drop ((h ++ [m]).length - 10) := by
  simp only [addHistory]
  split
  · rfl
  · rename_i hle
    rw [Nat.sub_eq_zero_of_le (by omega), List.drop_zero]

/-- Auxiliary: folding `_add_history` from a history of at most 10 entries
retains the 10-entry suffix of everything appended. -/
theorem foldl_addHistory : ∀ (msgs init : List Msg), init.length ≤ 10 →
    List.foldl addHistory init msgs = (init ++ msgs).drop ((init ++ msgs).length - 10) := by
  intro msgs
  induction msgs with
  | nil =>
    intro init h
    rw [List.foldl_nil, List.append_nil, Nat.sub_eq_zero_of_le h, List.drop_zero]
  | cons m rest ih =>
    intro init h
    have hA : addHistory init m = (init ++ [m]).drop (init.length + 1 - 10) := by
      rw [addHistory_eq_dropLast10, List.length_append, List.length_singleton]
    have hAlen : (addHistory init m).length ≤ 10 := by
      rw [hA, List.length_drop, List.length_append, List.length_singleton]
      omega
    have hk : init.length + 1 - 10 ≤ (init ++ [m]).length := by
      rw [List.length_append, List.length_singleton]
      omega
    rw [List.foldl_cons, ih _ hAlen, hA, ← List.drop_append_of_le_length hk,
      List.drop_drop, show (init ++ [m]) ++ rest = init ++ m :: rest by simp]
    congr 1
    simp only [List.length_drop, List.length_append, List.length_singleton,
      List.length_cons]
    omega

/-- C6: each history addition appends at the end and keeps exactly the 10
most recent entries, so after any sequence of additions (12 included) at
most the 10 most recent survive, oldest first. -/
theorem C6_history_sliding_window :
    (∀ (h : List Msg) (m : Msg),
      addHistory h m = (h ++ [m]).drop ((h ++ [m]).length - 10)) ∧
    (∀ msgs : List Msg,
      (List.foldl addHistory [] msgs).length ≤ 10 ∧
      List.foldl addHistory [] msgs = msgs.drop (msgs.length - 10)) := by
  refine ⟨addHistory_eq_dropLast10, ?_⟩
  intro msgs
  have hmain := foldl_addHistory msgs [] (by simp)
  simp only [List.nil_append] at hmain
  refine ⟨?_, hmain⟩
  rw [hmain, List.length_drop]
  omega

/-! ## C7: the spacing probe -/

/-- Ordered pairs `i < j` of an instance list, in loop order. -/
def ordPairs : List Inst → List (Inst × Inst)
  | [] => []
  | a :: rest => rest.map (fun b => (a, b)) ++ ordPairs rest

/-- Auxiliary: the inner spacing loop is the filtered-and-messaged suffix. -/
theorem tooCloseInner_spec (a : Inst) : ∀ l : List Inst,
    tooCloseInner a l =
      ((l.filter (fun b => closePair a b)).map (fun b => tooCloseMsg a.ref b.ref)) := by
  intro l
  induction l with
  | nil => rfl
  | cons b t ih =>
    by_cases h : closePair a b
    · simp [tooCloseInner, h, List.filter_cons, ih]
    · simp [tooCloseInner, h, List.filter_cons, ih]

/-- Auxiliary: filtering pairs with a fixed first component reduces to
filtering the second components. -/
theorem pairs_filter_map (a : Inst) : ∀ l : List Inst,
    (((l.map (fun b => (a, b))).filter (fun p => closePair p.1 p.2)).map
      (fun p => tooCloseMsg p.1.ref p.2.ref))
    = (l.filter (fun b => closePair a b)).map (fun b => tooCloseMsg a.ref b.ref) := by
  intro l
  induction l with
  | nil => rfl
  | cons b t ih =>
    by_cases h : closePair a b
    · simp [List.filter_cons, h, ih]
    · simp [List.filter_cons, h, ih]

/-- C7: the spacing phase emits exactly one too-close issue, naming both
references, for each ordered pair `i < j` whose squared distance is below
`20 * 20` (equivalently, whose nonnegative Euclidean distance is below the
threshold 20), and none for any other pair; in particular instances at
`(0,0)` and `(5,5)` produce exactly one issue and instances at `(0,0)` and
`(100,100)` produce none. -/
theorem C7_spacing_probe :
    (∀ inst : List Inst,
      tooCloseIssues inst =
        ((ordPairs inst).filter (fun p => closePair p.1 p.2)).map
          (fun p => tooCloseMsg p.1.ref p.2.ref)) ∧
    (∀ a b : Inst, closePair a b = true ↔
      (a.x - b.x) * (a.x - b.x) + (a.y - b.y) * (a.y - b.y) < 400) ∧
    (∀ d : Rat, 0 ≤ d → (d * d < 400 ↔ d < 20)) ∧
    tooCloseIssues [⟨"R1", 0, 0, 0, "Device:R", true⟩, ⟨"C1", 5, 5, 0, "Device:C", true⟩]
      = ["Placed instances too close: R1 and C1 (increase spacing >= 20.0)."] ∧
    tooCloseIssues [⟨"R1", 0, 0, 0, "Device:R", true⟩, ⟨"C1", 100, 100, 0, "Device:C", true⟩]
      = [] := by
  refine ⟨?_, ?_, ?_, ?_, ?_⟩
  · intro inst
    induction inst with
    | nil => rfl
    | cons a rest ih =>
      show tooCloseInner a rest ++ tooCloseIssues rest = _
      rw [ih, tooCloseInner_spec, ordPairs, List.filter_append, List.map_append,
        pairs_filter_map]
  · intro a b
    simp [closePair]
  · intro d hd
    constructor
    · intro h
      nlinarith
    · intro h
      nlinarith
  · norm_num [tooCloseIssues, tooCloseInner, closePair, tooCloseMsg]
    rfl
  · norm_num [tooCloseIssues, tooCloseInner, closePair]

/-- C7 (witness): the distance-squared equivalence applied at a concrete
nonnegative distance. -/
theorem C7_spacing_probe_witness :
    (0 : Rat) ≤ 5 ∧ ((5 : Rat) * 5 < 400 ↔ (5 : Rat) < 20) :=
  ⟨by norm_num, C7_spacing_probe.2.2.1 5 (by norm_num)⟩

/-! ## C10: pseudo-CAD net conversion -/

/-- First-occurrence deduplicating append, the specification-side view of
the `seen`-guarded net collection. -/
def dedupAppend (acc : List String) : List String → List String
  | [] => acc
  | s :: rest => dedupAppend (if s ∈ acc then acc else acc ++ [s]) rest

/-- Candidate name contributed by one `.get` result: a nonempty string, or
nothing. -/
def optStrVal : Option JValue → List String
  | some (.jstr s) => if s ≠ "" then [s] else []
  | _ => []

/-- Candidate names of one `nets` entry: the `id` key then the `name` key. -/
def entryNetNames (f : List (String × JValue)) : List String :=
  optStrVal (pyGetJ f "id") ++ optStrVal (pyGetJ f "name")

/-- Candidate names of one `powerDomains` entry. -/
def entryPdNames (f : List (String × JValue)) : List String :=
  optStrVal (pyGetJ f "name")

/-- All candidate net names in scan order: `nets` entries before
`powerDomains` entries. -/
def pseudoNetCandidates (netsE pdsE : List JValue) : List String :=
  (netsE.map (fun n => match n with
    | .jobj f => entryNetNames f
    | _ => [])).flatten ++
  (pdsE.map (fun p => match p with
    | .jobj f => entryPdNames f
    | _ => [])).flatten

/-- Auxiliary: one guarded append step is `dedupAppend` of its candidate. -/
theorem addIfNew_eq_dedupAppend (acc : List String) (ov : Option JValue) :
    addIfNew acc ov = dedupAppend acc (optStrVal ov) := by
  match ov with
  | none => rfl
  | some .jnull => rfl
  | some (.jbool b) => rfl
  | some (.jint n) => rfl
  | some (.jfloat q) => rfl
  | some (.jarr xs) => rfl
  | some (.jobj fs) => rfl
  | some (.jstr s) =>
    by_cases hs : s = ""
    · simp [addIfNew, optStrVal, dedupAppend, hs]
    · by_cases hm : s ∈ acc
      · simp [addIfNew, optStrVal, dedupAppend, hs, hm]
      · simp [addIfNew, optStrVal, dedupAppend, hs, hm]

/-- Auxiliary: `dedupAppend` splits over list append. -/
theorem dedupAppend_append (xs : List String) : ∀ (acc ys : List String),
    dedupAppend acc (xs ++ ys) = dedupAppend (dedupAppend acc xs) ys := by
  induction xs with
  | nil => intro acc ys; rfl
  | cons x rest ih =>
    intro acc ys
    simp only [List.cons_append, dedupAppend]
    exact ih _ ys

/-- Auxiliary: the `nets` loop computes `dedupAppend` of its candidates. -/
theorem collectFromNets_eq : ∀ (l : List JValue) (acc out : List String),
    collectFromNets l acc = some out →
    out = dedupAppend acc ((l.map (fun n => match n with
      | .jobj f => entryNetNames f
      | _ => [])).flatten) := by
  intro l
  induction l with
  | nil =>
    intro acc out h
    cases h
    rfl
  | cons n rest ih =>
    intro acc out h
    match n with
    | .jobj f =>
      simp only [collectFromNets] at h
      rw [ih _ _ h, List.map_cons, List.flatten_cons, dedupAppend_append]
      congr 1
      rw [addIfNew_eq_dedupAppend, addIfNew_eq_dedupAppend]
      simp only [entryNetNames, dedupAppend_append]
    | .jnull => cases h
    | .jbool b => cases h
    | .jint k => cases h
    | .jfloat q => cases h
    | .jstr s => cases h
    | .jarr xs => cases h

/-- Auxiliary: the `powerDomains` loop computes `dedupAppend` of its
candidates. -/
theorem collectFromPds_eq : ∀ (l : List JValue) (acc out : List String),
    collectFromPds l acc = some out →
    out = dedupAppend acc ((l.map (fun p => match p with
      | .jobj f => entryPdNames f
      | _ => [])).flatten) := by
  intro l
  induction l with
  | nil =>
    intro acc out h
    cases h
    rfl
  | cons n rest ih =>
    intro acc out h
    match n with
    | .jobj f =>
      simp only [collectFromPds] at h
      rw [ih _ _ h, List.map_cons, List.flatten_cons, dedupAppend_append]
      congr 1
      rw [addIfNew_eq_dedupAppend]
      simp only [entryPdNames]
    | .jnull => cases h
    | .jbool b => cases h
    | .jint k => cases h
    | .jfloat q => cases h
    | .jstr s => cases h
    | .jarr xs => cases h

/-- Auxiliary: `dedupAppend` is `firstOccAux` with the accumulator as the
seen set. -/
theorem dedupAppend_eq_firstOccAux : ∀ (xs acc seen : List String),
    (∀ y, y ∈ seen ↔ y ∈ acc) →
    dedupAppend acc xs = acc ++ firstOccAux seen xs := by
  intro xs
  induction xs with
  | nil => intro acc seen _; simp [dedupAppend, firstOccAux]
  | cons x rest ih =>
    intro acc seen hs
    by_cases hm : x ∈ acc
    · have hx : x ∈ seen := (hs x).mpr hm
      simp only [dedupAppend, firstOccAux, if_pos hm, if_pos hx]
      exact ih acc seen hs
    · have hx : x ∉ seen := fun hc => hm ((hs x).mp hc)
      simp only [dedupAppend, firstOccAux, if_neg hm, if_neg hx]
      rw [ih (acc ++ [x]) (x :: seen) ?_]
      · simp
      · intro y
        simp [hs y, or_comm]

/-- Auxiliary: `dedupAppend` preserves `Nodup`. -/
theorem dedupAppend_nodup : ∀ (xs acc : List String), acc.Nodup →
    (dedupAppend acc xs).Nodup := by
  intro xs
  induction xs with
  | nil => intro acc h; exact h
  | cons x rest ih =>
    intro acc h
    by_cases hm : x ∈ acc
    · simp only [dedupAppend, if_pos hm]
      exact ih acc h
    · simp only [dedupAppend, if_neg hm]
      refine ih _ ?_
      simp [List.nodup_append, h, hm]

/-- C10: whenever the pseudo-CAD conversion succeeds, the resulting net list
is duplicate-free, contains `GND`, and equals the first-occurrence
deduplication of the candidate names (scanning each `nets` entry's `id`
then `name`, then each `powerDomains` entry's `name`), with `GND` appended
exactly when the candidates do not supply it. -/
theorem C10_pseudo_nets :
    ∀ (fields : List (String × JValue)) (c : CircuitM),
      convertPseudoCad fields = some c →
      c.nets.Nodup ∧ "GND" ∈ c.nets ∧
      ∃ netsE pdsE,
        netEntries (pyGetJ fields "nets") = some netsE ∧
        netEntries (pyGetJ fields "powerDomains") = some pdsE ∧
        c.nets = (let cand := firstOccDedup (pseudoNetCandidates netsE pdsE);
          if "GND" ∈ cand then cand else cand ++ ["GND"]) := by
  intro fields c h
  rw [convertPseudoCad] at h
  simp only [bind, Option.bind_eq_some] at h
  obtain ⟨title, ht, comps, hc, netsE, hn, acc1, ha1, pdsE, hp, acc2, ha2, hpure⟩ := h
  have hacc1 := collectFromNets_eq netsE [] acc1 ha1
  have hacc2 := collectFromPds_eq pdsE acc1 acc2 ha2
  have hcand : acc2 = firstOccDedup (pseudoNetCandidates netsE pdsE) := by
    rw [hacc2, hacc1, ← dedupAppend_append, pseudoNetCandidates, firstOccDedup]
    exact dedupAppend_eq_firstOccAux _ [] [] (by simp)
  have hnodup : acc2.Nodup := by
    rw [hacc2]
    refine dedupAppend_nodup _ _ ?_
    rw [hacc1]
    exact dedupAppend_nodup _ [] (by simp)
  have hnets : c.nets = if "GND" ∈ acc2 then acc2 else acc2 ++ ["GND"] := by
    cases hpure
    rfl
  refine ⟨?_, ?_, netsE, pdsE, hn, hp, ?_⟩
  · rw [hnets]
    by_cases hg : "GND" ∈ acc2
    · simp only [if_pos hg]
      exact hnodup
    · simp only [if_neg hg]
      simp [List.nodup_append, hnodup, hg]
  · rw [hnets]
    by_cases hg : "GND" ∈ acc2
    · simp [hg]
    · simp [hg]
  · rw [hnets, hcand]

/-- Concrete pseudo-CAD fields for the C10 witness. -/
def pseudoFieldsW : List (String × JValue) :=
  [("components", .jarr []),
   ("nets", .jarr [.jobj [("id", .jstr "N1"), ("name", .jstr "VCC")],
                   .jobj [("name", .jstr "N1")]]),
   ("powerDomains", .jarr [.jobj [("name", .jstr "VCC")], .jobj [("name", .jstr "V33")]])]

/-- The circuit those fields convert to. -/
def pseudoCircuitW : CircuitM :=
  ⟨some "Untitled", [], ["N1", "VCC", "V33", "GND"]⟩

/-- C10 (witness): the theorem applied to a concrete well-shaped input. -/
theorem C10_pseudo_nets_witness :
    convertPseudoCad pseudoFieldsW = some pseudoCircuitW ∧
    pseudoCircuitW.nets.Nodup ∧ "GND" ∈ pseudoCircuitW.nets :=
  ⟨rfl, (C10_pseudo_nets pseudoFieldsW pseudoCircuitW rfl).1,
    (C10_pseudo_nets pseudoFieldsW pseudoCircuitW rfl).2.1⟩

/-! ## C8: loading the circuit specification -/

/-- C8 (counterexample): the claim asserts malformed content yields the
empty default circuit rather than failing; `json.loads` raises on the
content `not json` and `load_circuit_spec` propagates the exception. -/
theorem C8_counterexample :
    loadCircuitSpec "not json" = none ∧
    loadCircuitSpec "not json" ≠ some defaultCircuit := by
  constructor
  · rfl
  · intro h
    rw [show loadCircuitSpec "not json" = none from rfl] at h
    cases h

/-- C8 (amended): content that fails JSON parsing makes the load raise;
valid JSON of unrecognised shape — any non-object, or an object without the
`components`, `parts` and `nets` keys — yields the empty default circuit;
only the two recognised shapes reach a non-default construction. -/
theorem C8_load_amended :
    (∀ s : String, pyJsonLoads s = none → loadCircuitSpec s = none) ∧
    (∀ (s : String) (fs : List (String × JValue)),
      pyJsonLoads s = some (.jobj fs) →
      hasKeyJ fs "components" = false →
      hasKeyJ fs "parts" = false →
      hasKeyJ fs "nets" = false →
      loadCircuitSpec s = some defaultCircuit) ∧
    (∀ (s : String) (v : JValue), pyJsonLoads s = some v → (∀ fs, v ≠ .jobj fs) →
      loadCircuitSpec s = some defaultCircuit) := by
  refine ⟨?_, ?_, ?_⟩
  · intro s h
    simp [loadCircuitSpec, h]
  · intro s fs h h1 h2 h3
    simp [loadCircuitSpec, h, loadValue, h1, h2, h3]
  · intro s v h hne
    simp only [loadCircuitSpec, h]
    cases v with
    | jobj fs => exact absurd rfl (hne fs)
    | jnull => rfl
    | jbool b => rfl
    | jint n => rfl
    | jfloat q => rfl
    | jstr t => rfl
    | jarr xs => rfl

/-- C8 (amended, witness): concrete unrecognised-shape content. -/
theorem C8_load_amended_witness :
    pyJsonLoads "[1]" = some (.jarr [.jint 1]) ∧
    loadCircuitSpec "[1]" = some defaultCircuit :=
  ⟨rfl, C8_load_amended.2.2 "[1]" (.jarr [.jint 1]) rfl (fun _ h => JValue.noConfusion h)⟩

/-! ## C5: the allowed-identifier table -/

/-- Auxiliary: a `Custom:`-qualified identifier is never a sentinel. -/
theorem mkCustom_not_sentinel (b : List Char) : sentinelLower (mkCustom b) = false := by
  have h1 : pyLower (mkCustom b) ≠ "device:u" := by
    intro h
    have hc : (pyLower (mkCustom b)).data.head? = some 'c' := rfl
    rw [h] at hc
    exact absurd hc (by decide)
  have h2 : pyLower (mkCustom b) ≠ "device:unknown" := by
    intro h
    have hc : (pyLower (mkCustom b)).data.head? = some 'c' := rfl
    rw [h] at hc
    exact absurd hc (by decide)
  simp [sentinelLower, h1, h2]

/-- Auxiliary: the dedup-filter-cap loop never exceeds the cap. -/
theorem dfcAux_length (cap : Nat) : ∀ (l acc : List String), acc.length < cap →
    (dfcAux cap l acc).length ≤ cap := by
  intro l
  induction l with
  | nil =>
    intro acc h
    simp only [dfcAux, List.length_reverse]
    omega
  | cons c rest ih =>
    intro acc h
    simp only [dfcAux]
    by_cases hs : sentinelLower c = true
    · simp only [if_pos hs]
      exact ih acc h
    · simp only [if_neg hs]
      by_cases hm : c ∈ acc
      · simp only [if_pos hm]
        exact ih acc h
      · simp only [if_neg hm]
        by_cases hc : cap ≤ acc.length + 1
        · simp only [if_pos hc, List.length_reverse, List.length_cons]
          omega
        · simp only [if_neg hc]
          refine ih (c :: acc) ?_
          simp only [List.length_cons]
          omega

/-- Auxiliary: the dedup-filter-cap loop keeps the accumulator
duplicate-free. -/
theorem dfcAux_nodup (cap : Nat) : ∀ (l acc : List String), acc.Nodup →
    (dfcAux cap l acc).Nodup := by
  intro l
  induction l with
  | nil =>
    intro acc h
    simpa [dfcAux, List.nodup_reverse] using h
  | cons c rest ih =>
    intro acc h
    simp only [dfcAux]
    by_cases hs : sentinelLower c = true
    · simp only [if_pos hs]
      exact ih acc h
    · simp only [if_neg hs]
      by_cases hm : c ∈ acc
      · simp only [if_pos hm]
        exact ih acc h
      · simp only [if_neg hm]
        by_cases hc : cap ≤ acc.length + 1
        · simp only [if_pos hc]
          exact List.nodup_reverse.mpr (List.nodup_cons.mpr ⟨hm, h⟩)
        · simp only [if_neg hc]
          exact ih (c :: acc) (List.nodup_cons.mpr ⟨hm, h⟩)

/-- Auxiliary: the dedup-filter-cap loop admits no sentinel. -/
theorem dfcAux_sentinel (cap : Nat) : ∀ (l acc : List String),
    (∀ s ∈ acc, sentinelLower s = false) →
    ∀ s ∈ dfcAux cap l acc, sentinelLower s = false := by
  intro l
  induction l with
  | nil =>
    intro acc h s hmem
    exact h s (List.mem_reverse.mp hmem)
  | cons c rest ih =>
    intro acc h s hmem
    rw [dfcAux] at hmem
    by_cases hs : sentinelLower c = true
    · rw [if_pos hs] at hmem
      exact ih acc h s hmem
    · have hcs : sentinelLower c = false := by
        cases hb : sentinelLower c
        · rfl
        · exact absurd hb hs
      rw [if_neg hs] at hmem
      by_cases hm : c ∈ acc
      · rw [if_pos hm] at hmem
        exact ih acc h s hmem
      · rw [if_neg hm] at hmem
        by_cases hc : cap ≤ acc.length + 1
        · rw [if_pos hc] at hmem
          rcases List.mem_cons.mp (List.mem_reverse.mp hmem) with h1 | h2
          · rw [h1]; exact hcs
          · exact h s h2
        · rw [if_neg hc] at hmem
          refine ih (c :: acc) ?_ s hmem
          intro t ht
          rcases List.mem_cons.mp ht with h1 | h2
          · rw [h1]; exact hcs
          · exact h t h2

/-- Auxiliary: the per-part candidate list is non-empty, capped,
duplicate-free and sentinel-free whenever the cap is at least 1. -/
theorem candidatesForPart_spec (env : RagEnv) (part : PartM) (cap : Nat) (hcap : 1 ≤ cap) :
    candidatesForPart env part cap ≠ [] ∧
    (candidatesForPart env part cap).length ≤ cap ∧
    (candidatesForPart env part cap).Nodup ∧
    ∀ c ∈ candidatesForPart env part cap, sentinelLower c = false := by
  rw [candidatesForPart]
  by_cases he : (dfcAux cap (rawCandidates env part cap) []).isEmpty = true
  · rw [if_pos he]
    have hsingle : ∀ b : List Char,
        ([mkCustom b] ≠ [] ∧ ([mkCustom b] : List String).length ≤ cap ∧
          ([mkCustom b] : List String).Nodup ∧
          ∀ c ∈ ([mkCustom b] : List String), sentinelLower c = false) := by
      intro b
      refine ⟨by simp, by simpa using hcap, by simp, ?_⟩
      intro c hcm
      rw [List.mem_singleton.mp hcm]
      exact mkCustom_not_sentinel b
    match part.value with
    | some v =>
      by_cases hv : v ≠ ""
      · simp only [if_pos hv, sanitizeValueForCustom]
        exact hsingle _
      · simp only [if_neg hv]
        exact hsingle _
    | none => exact hsingle _
  · rw [if_neg he]
    refine ⟨fun hn => he (by simp [hn]), ?_, ?_, ?_⟩
    · exact dfcAux_length cap _ [] (by simpa using hcap)
    · exact dfcAux_nodup cap _ [] (by simp)
    · exact dfcAux_sentinel cap _ [] (by simp)

/-- C5: for parts with distinct references the allowed-identifier table has
exactly one key per part, in input order, and every value is a non-empty,
duplicate-free list of at most `cap` identifiers containing no sentinel
(`Device:U` / `Device:Unknown`, case-insensitively). -/
theorem C5_candidates_table :
    ∀ (env : RagEnv) (parts : List PartM) (cap : Nat), 1 ≤ cap →
      (parts.map PartM.ref).Nodup →
      (candidatesForParts env parts cap).map Prod.fst = parts.map PartM.ref ∧
      (candidatesForParts env parts cap).length = parts.length ∧
      ∀ pr ∈ candidatesForParts env parts cap,
        pr.2 ≠ [] ∧ pr.2.length ≤ cap ∧ pr.2.Nodup ∧
        ∀ c ∈ pr.2, sentinelLower c = false := by
  intro env parts cap hcap _
  refine ⟨?_, ?_, ?_⟩
  · simp [candidatesForParts, List.map_map]
  · simp [candidatesForParts]
  · intro pr hpr
    simp only [candidatesForParts, List.mem_map] at hpr
    obtain ⟨p, _, rfl⟩ := hpr
    have hspec := candidatesForPart_spec env p cap hcap
    exact ⟨hspec.1, hspec.2.1, hspec.2.2.1, hspec.2.2.2⟩

/-- Concrete resolver environment for the C5 witness. -/
def ragEnvW : RagEnv :=
  ⟨[("Device", ["R", "C"])], fun _ _ => []⟩

/-- Concrete parts for the C5 witness. -/
def partsW : List PartM :=
  [⟨"R1", "R", none, none, [], none, some 0⟩,
   ⟨"U1", "MCU", none, none, [], none, some 0⟩]

/-- C5 (witness): the theorem applied to a concrete circuit. -/
theorem C5_candidates_table_witness :
    (candidatesForParts ragEnvW partsW 5).map Prod.fst = partsW.map PartM.ref ∧
    (candidatesForParts ragEnvW partsW 5).length = partsW.length ∧
    ∀ pr ∈ candidatesForParts ragEnvW partsW 5,
      pr.2 ≠ [] ∧ pr.2.length ≤ 5 ∧ pr.2.Nodup ∧
      ∀ c ∈ pr.2, sentinelLower c = false :=
  C5_candidates_table ragEnvW partsW 5 (by decide) (by decide)

/-! ## C2: budget exhaustion -/

/-- Auxiliary: the loop performs at most the remaining budget. -/
theorem loopFrom_iters_le (cfg : OrchCfg) (schPath : String) (env : Nat → IterEnv) :
    ∀ (r i : Nat) (prev : Option String) (cnt : Nat),
      (loopFrom cfg schPath env i r prev cnt).iters ≤ cnt + r := by
  intro r
  induction r with
  | zero =>
    intro i prev cnt
    simp [loopFrom]
  | succ r ih =>
    intro i prev cnt
    rw [loopFrom]
    by_cases hacc : (iterStep cfg schPath (env i) prev).2.2 = true
    · simp only [if_pos hacc]
      omega
    · simp only [if_neg hacc]
      have := ih (i + 1) (some (iterStep cfg schPath (env i) prev).1) (cnt + 1)
      omega

/-- Auxiliary: a run that never accepted consumed its whole budget and holds
the document written by its last iteration. -/
theorem loopFrom_exhaust (cfg : OrchCfg) (schPath : String) (env : Nat → IterEnv) :
    ∀ (r i : Nat) (prev : Option String) (cnt : Nat),
      (loopFrom cfg schPath env i r prev cnt).accepted = false →
      (loopFrom cfg schPath env i r prev cnt).iters = cnt + r ∧
      (loopFrom cfg schPath env i r prev cnt).doc = lastDocFrom cfg schPath env i r prev := by
  intro r
  induction r with
  | zero =>
    intro i prev cnt _
    exact ⟨rfl, rfl⟩
  | succ r ih =>
    intro i prev cnt h
    rw [loopFrom] at h ⊢
    by_cases hacc : (iterStep cfg schPath (env i) prev).2.2 = true
    · rw [if_pos hacc] at h
      cases h
    · rw [if_neg hacc] at h ⊢
      have := ih (i + 1) (some (iterStep cfg schPath (env i) prev).1) (cnt + 1) h
      refine ⟨by omega, ?_⟩
      rw [this.2, lastDocFrom]

/-- Auxiliary: after at least one iteration the output file exists. -/
theorem lastDocFrom_isSome (cfg : OrchCfg) (schPath : String) (env : Nat → IterEnv) :
    ∀ (r i : Nat) (prev : Option String), prev.isSome = true ∨ 1 ≤ r →
      (lastDocFrom cfg schPath env i r prev).isSome = true := by
  intro r
  induction r with
  | zero =>
    intro i prev h
    rcases h with h | h
    · exact h
    · omega
  | succ r ih =>
    intro i prev _
    rw [lastDocFrom]
    exact ih (i + 1) (some _) (Or.inl rfl)

/-- C2: for every environment and every budget `M ≥ 1` the loop performs at
most `M` iterations and returns the sanitized output path; if acceptance
never holds it performs exactly `M` iterations (terminating, as a total
function, without raising), and the persisted file exists and equals the
`M`-th iteration's document. -/
theorem C2_budget_exhaustion :
    ∀ (cfg : OrchCfg) (env : Nat → IterEnv) (title : Option String) (M : Nat), 1 ≤ M →
      (runOrchestration cfg env title M).1 = schFileName title ∧
      (runOrchestration cfg env title M).2.iters ≤ M ∧
      ((runOrchestration cfg env title M).2.accepted = false →
        (runOrchestration cfg env title M).2.iters = M ∧
        (runOrchestration cfg env title M).2.doc
          = lastDocFrom cfg (schFileName title) env 1 M none ∧
        ∃ d, (runOrchestration cfg env title M).2.doc = some d) := by
  intro cfg env title M hM
  refine ⟨rfl, ?_, ?_⟩
  · have := loopFrom_iters_le cfg (schFileName title) env M 1 none 0
    simpa [runOrchestration] using this
  · intro hacc
    have h2 := loopFrom_exhaust cfg (schFileName title) env M 1 none 0 hacc
    have hdoc : (runOrchestration cfg env title M).2.doc
        = lastDocFrom cfg (schFileName title) env 1 M none := h2.2
    refine ⟨by simpa using h2.1, hdoc, ?_⟩
    rw [hdoc]
    have hs := lastDocFrom_isSome cfg (schFileName title) env M 1 none (Or.inr hM)
    exact Option.isSome_iff_exists.mp hs

/-- Configuration for the C2 witness: heuristic validation, no expected
references. -/
def cfgW : OrchCfg := ⟨false, []⟩

/-- Environment for the C2 witness: the oracle always fails (empty reply)
and the rule-checker is absent, so acceptance never holds. -/
def envW : Nat → IterEnv := fun _ => ⟨"", "", .unavailable⟩

/-- C2 (witness): a concrete never-converging run with budget 3 performs
exactly 3 iterations and persists the 3rd iteration's document (the seed). -/
theorem C2_budget_exhaustion_witness :
    (runOrchestration cfgW envW (some "My Board") 3).2.accepted = false ∧
    (runOrchestration cfgW envW (some "My Board") 3).2.iters = 3 ∧
    (runOrchestration cfgW envW (some "My Board") 3).2.doc
      = lastDocFrom cfgW (schFileName (some "My Board")) envW 1 3 none ∧
    (runOrchestration cfgW envW (some "My Board") 3).2.doc
      = some (seedSchematic "Untitled") := by
  have hacc : (runOrchestration cfgW envW (some "My Board") 3).2.accepted = false := by
    decide
  have happ := (C2_budget_exhaustion cfgW envW (some "My Board") 3 (by decide)).2.2 hacc
  exact ⟨hacc, happ.1, happ.2.1, by decide⟩

end SchematicsAgent
